import Mathlib

/-!
Verification development for the goftp repository (an FTP server and client
written in Go).  The Go sources are embedded shallowly: Go strings become
`List Char`, Go maps become lookup functions, filesystem and network effects
become explicit oracle records, and fallible Go code returns `Option` or a
dedicated result type.  A Go runtime fault (index out of range on a string)
is modelled by a distinguished `crash` constructor.
-/

namespace Goftp

/-- Character list of a string literal; Go strings are modelled as `List Char`. -/
def chars (s : String) : List Char := s.data

/-- Model of Go `strings.Split(s, sep)` for a one-character separator. -/
def splitOnChar (sep : Char) : List Char → List (List Char)
  | [] => [[]]
  | x :: xs =>
    let r := splitOnChar sep xs
    if x = sep then [] :: r
    else
      match r with
      | [] => [[x]]
      | p :: ps => (x :: p) :: ps

theorem splitOnChar_ne_nil (sep : Char) (s : List Char) : splitOnChar sep s ≠ [] := by
  cases s with
  | nil => simp [splitOnChar]
  | cons x xs =>
    simp only [splitOnChar]
    split
    · simp
    · split <;> simp

/-- Model of Go `strings.TrimLeft(s, cutset)` for a one-character cutset. -/
def trimLeftChar (c : Char) : List Char → List Char
  | [] => []
  | x :: xs => if x = c then trimLeftChar c xs else x :: xs

/-- Model of Go `strings.TrimRight(s, cutset)` for a one-character cutset. -/
def trimRightChar (c : Char) (s : List Char) : List Char :=
  (trimLeftChar c s.reverse).reverse

/-- Model of Go `strings.Trim(s, cutset)` for a one-character cutset. -/
def trimChar (c : Char) (s : List Char) : List Char :=
  trimRightChar c (trimLeftChar c s)

/-- Model of Go `net.JoinHostPort`: a host containing a colon is bracketed. -/
def joinHostPort (host port : List Char) : List Char :=
  if host.contains ':' then '[' :: host ++ ']' :: ':' :: port
  else host ++ ':' :: port

/-- Model of Go `net.SplitHostPort`: split at the last colon, stripping brackets
around an IPv6 host.  `none` models the error return. -/
def splitHostPort (s : List Char) : Option (List Char × List Char) :=
  if s.contains ':' then
    let rev := s.reverse
    let portRev := rev.takeWhile (fun c => c ≠ ':')
    let host0 := (rev.drop (portRev.length + 1)).reverse
    let port := portRev.reverse
    match host0 with
    | '[' :: rest =>
      if rest.getLast? = some ']' then some (rest.dropLast, port) else none
    | _ => if host0.contains ':' then none else some (host0, port)
  else none

/-- Decimal digit test, as Go's scanner uses on `%d` input. -/
def isDigitChar (c : Char) : Bool := '0' ≤ c ∧ c ≤ '9'

/-- Hexadecimal digit test, as Go `net.ParseIP` uses on IPv6 groups. -/
def isHexDigitChar (c : Char) : Bool :=
  ('0' ≤ c ∧ c ≤ '9') ∨ ('a' ≤ c ∧ c ≤ 'f') ∨ ('A' ≤ c ∧ c ≤ 'F')

/-- Numeric value of one hexadecimal digit character. -/
def hexDigitVal (c : Char) : Nat :=
  if '0' ≤ c ∧ c ≤ '9' then c.toNat - '0'.toNat
  else if 'a' ≤ c ∧ c ≤ 'f' then c.toNat - 'a'.toNat + 10
  else c.toNat - 'A'.toNat + 10

/-- Value of a decimal digit string (most significant digit first). -/
def digitsToNat (s : List Char) : Nat :=
  s.foldl (fun acc c => acc * 10 + (c.toNat - '0'.toNat)) 0

/-- Value of a hexadecimal digit string (most significant digit first). -/
def hexToNat (s : List Char) : Nat :=
  s.foldl (fun acc c => acc * 16 + hexDigitVal c) 0

/-- Model of Go `fmt.Sprintf` with a `%d` verb on a natural number. -/
def natDecimal (n : Nat) : List Char := Nat.toDigits 10 n

/-- Model of Go `fmt.Sscanf(s, "%d", &x)` into a `uint16` variable that starts
at zero: leading spaces are skipped, the longest digit run is read, and on a
scan error (no digits, or a value out of the `uint16` range) the variable is
left untouched at zero.  The Go callers ignore the returned error. -/
def sscanfUint16 (s : List Char) : Nat :=
  let t := s.dropWhile (fun c => c = ' ')
  let ds := t.takeWhile isDigitChar
  if ds = [] then 0
  else
    let v := digitsToNat ds
    if v > 65535 then 0 else v

/-- Model of Go `path.IsAbs`: true when the path starts with a slash. -/
def pathIsAbs : List Char → Bool
  | [] => false
  | c :: _ => c = '/'

/-- One step of the lexical cleaning stack: drop empty and `.` elements, let
`..` pop a previous element (rooted paths drop an unmatched `..`, relative
ones keep it). -/
def cleanStep (rooted : Bool) (stack : List (List Char)) (part : List Char) :
    List (List Char) :=
  if part = [] ∨ part = ['.'] then stack
  else if part = ['.', '.'] then
    match stack with
    | [] => if rooted then [] else [['.', '.']]
    | x :: rest => if x = ['.', '.'] then part :: stack else rest
  else part :: stack

/-- Model of Go `path.Clean`: purely lexical normalization of a slash path. -/
def pathClean (p : List Char) : List Char :=
  if p = [] then ['.']
  else
    let rooted := pathIsAbs p
    let stack := ((splitOnChar '/' p).foldl (cleanStep rooted) []).reverse
    if stack = [] then (if rooted then ['/'] else ['.'])
    else (if rooted then ['/'] else []) ++ List.intercalate ['/'] stack

/-- Model of Go `path.Join` on two elements: empty elements are skipped and the
slash-joined rest is cleaned. -/
def pathJoin2 (a b : List Char) : List Char :=
  if a = [] then (if b = [] then [] else pathClean b)
  else if b = [] then pathClean a
  else pathClean (a ++ '/' :: b)

/-- Go `net.IP` values as produced by `net.ParseIP`: a four-octet IPv4
address, or sixteen IPv6 bytes. -/
inductive GoIP
  | v4 (a b c d : Nat)
  | v6 (bytes : List Nat)
deriving DecidableEq

/-- One dotted-quad field as accepted by Go's `dtoi`: a nonempty digit run
whose value is at most 255. -/
def parseOctet (g : List Char) : Option Nat :=
  if g ≠ [] ∧ g.all isDigitChar ∧ digitsToNat g ≤ 255 then some (digitsToNat g)
  else none

/-- Model of the IPv4 branch of Go `net.ParseIP`: four dot-separated octets. -/
def parseIPv4 (s : List Char) : Option (Nat × Nat × Nat × Nat) :=
  match splitOnChar '.' s with
  | [a, b, c, d] => do
    let x ← parseOctet a
    let y ← parseOctet b
    let z ← parseOctet c
    let w ← parseOctet d
    pure (x, y, z, w)
  | _ => none

/-- Split an IPv6 literal at its first `::`, when present. -/
def splitEllipsis : List Char → Option (List Char × List Char)
  | [] => none
  | [_] => none
  | c :: d :: rest =>
    if c = ':' ∧ d = ':' then some ([], rest)
    else (splitEllipsis (d :: rest)).map (fun lr => (c :: lr.1, lr.2))

/-- Colon-separated groups of one side of an IPv6 literal; an empty side has
no groups. -/
def sideGroups (s : List Char) : List (List Char) :=
  if s = [] then [] else splitOnChar ':' s

/-- Bytes contributed by one IPv6 group: a hex group of at most four digits,
or (in the final position only) an embedded dotted-quad IPv4 address. -/
def groupBytes (isLast : Bool) (g : List Char) : Option (List Nat) :=
  if g.contains '.' then
    if isLast then (parseIPv4 g).map (fun q => [q.1, q.2.1, q.2.2.1, q.2.2.2])
    else none
  else if g ≠ [] ∧ g.length ≤ 4 ∧ g.all isHexDigitChar then
    some [hexToNat g / 256, hexToNat g % 256]
  else none

/-- Bytes of a list of IPv6 groups, allowing an embedded IPv4 address only in
the last group when `v4Last` is set. -/
def groupListBytes (v4Last : Bool) : List (List Char) → Option (List Nat)
  | [] => some []
  | [g] => groupBytes v4Last g
  | g :: g2 :: rest => do
    let b ← groupBytes false g
    let bs ← groupListBytes v4Last (g2 :: rest)
    pure (b ++ bs)

/-- Model of the IPv6 branch of Go `net.ParseIP`: hex groups separated by
colons, at most one `::` ellipsis expanding to zero bytes, an optional
trailing embedded IPv4 address, sixteen bytes in total. -/
def parseIPv6 (s : List Char) : Option (List Nat) :=
  match splitEllipsis s with
  | none => do
    let bs ← groupListBytes true (sideGroups s)
    if bs.length = 16 then pure bs else none
  | some lr => do
    let lb ← groupListBytes false (sideGroups lr.1)
    let rb ← groupListBytes true (sideGroups lr.2)
    let n := lb.length + rb.length
    if n ≤ 14 then pure (lb ++ List.replicate (16 - n) 0 ++ rb) else none

/-- Model of Go `net.ParseIP`: the first dot or colon selects the IPv4 or the
IPv6 form; `none` models the `nil` result. -/
def parseIP (s : List Char) : Option GoIP :=
  match s.find? (fun c => c = '.' ∨ c = ':') with
  | none => none
  | some c =>
    if c = '.' then (parseIPv4 s).map (fun q => GoIP.v4 q.1 q.2.1 q.2.2.1 q.2.2.2)
    else (parseIPv6 s).map GoIP.v6

/-- Model of Go `IP.To4`: IPv4 addresses and IPv4-mapped IPv6 addresses. -/
def goTo4 : GoIP → Option (Nat × Nat × Nat × Nat)
  | .v4 a b c d => some (a, b, c, d)
  | .v6 bs =>
    match bs with
    | [0, 0, 0, 0, 0, 0, 0, 0, 0, 0, 255, 255, a, b, c, d] => some (a, b, c, d)
    | _ => none

/-- Model of Go `IP.IsLoopback`: `127.x.x.x` for IPv4, `::1` for IPv6. -/
def goIsLoopback : GoIP → Bool
  | .v4 a _ _ _ => a = 127
  | .v6 bs => bs = [0, 0, 0, 0, 0, 0, 0, 0, 0, 0, 0, 0, 0, 0, 0, 1]

/-- Result of `parseEPRTArg`; `crash` models the Go index-out-of-range fault
when the argument is empty, the two error constructors model the generic
invalid-string error and the distinguished `errInvalidAddrFamily`. -/
inductive EPRTRes
  | crash
  | badString
  | badFamily
  | addr (a : List Char)
deriving DecidableEq

/-- Embedding of `parseEPRTArg` (handlers source): the first byte is the
delimiter used as a trim cutset, but the trimmed argument is split on the
literal `|` character; exactly three fields are required and the first must
be `1` or `2`. -/
def parseEPRTArg (arg : List Char) : EPRTRes :=
  match arg with
  | [] => .crash
  | d :: _ =>
    match splitOnChar '|' (trimChar d arg) with
    | [proto, hostp, portp] =>
      if proto = chars "1" ∨ proto = chars "2" then .addr (joinHostPort hostp portp)
      else .badFamily
    | _ => .badString

/-- Embedding of `getEPRTString` (client commands source): protocol `1` for
IPv4, `2` for IPv6, except that the IPv6 loopback address is rewritten to
`127.0.0.1` with protocol `1`. -/
def getEPRTString (host port : List Char) : Option (List Char) :=
  match parseIP host with
  | none => none
  | some ip =>
    match goTo4 ip with
    | some _ => some ('|' :: (chars "1" ++ ('|' :: (host ++ ('|' :: (port ++ ['|']))))))
    | none =>
      if goIsLoopback ip then
        some ('|' :: (chars "1" ++ ('|' :: (chars "127.0.0.1" ++ ('|' :: (port ++ ['|']))))))
      else some ('|' :: (chars "2" ++ ('|' :: (host ++ ('|' :: (port ++ ['|']))))))

/-- Embedding of `getPORTString` (client commands source): the host must have
four dot-separated fields, the port is scanned into a `uint16` (scan errors
ignored), and the argument is the comma-joined fields followed by the high and
low port bytes.  The out-of-range check on the scanned `uint16` can never
fire. -/
def getPORTString (host port : List Char) : Option (List Char) :=
  let hostBytes := splitOnChar '.' host
  if hostBytes.length = 4 then
    let intPort := sscanfUint16 port
    if intPort > 65535 then none
    else
      let low := intPort % 256
      let high := intPort / 256
      some (hostBytes.foldr (fun s acc => s ++ ',' :: acc)
        (natDecimal high ++ ',' :: natDecimal low))
  else none

/-- Embedding of `hostPortToAddr` (client commands source): six comma-separated
fields; the first four are joined verbatim with dots, the last two are scanned
into `uint16` variables (scan errors ignored, leaving zero) and combined as
`p1*256+p2` in `uint16` arithmetic.  The subsequent `port > MaxUint16` check
is dead code because the product has already wrapped. -/
def hostPortToAddr (hostPort : List Char) : Option (List Char) :=
  match splitOnChar ',' hostPort with
  | [a, b, c, d, p1s, p2s] =>
    let host := a ++ ('.' :: (b ++ ('.' :: (c ++ ('.' :: d)))))
    let p1 := sscanfUint16 p1s
    let p2 := sscanfUint16 p2s
    let port := (p1 * 256 + p2) % 65536
    if port > 65535 then none
    else some (joinHostPort host (natDecimal port))
  | _ => none

/-- Embedding of `strings.Replace(s, "\n", "\r\n", -1)` as used by the LIST
and RETR handlers: every LF, bare or not, becomes CRLF. -/
def lfToCrlfAll : List Char → List Char
  | [] => []
  | c :: cs => if c = '\n' then '\r' :: '\n' :: lfToCrlfAll cs else c :: lfToCrlfAll cs

/-- Modelled from the spec: conversion of each bare LF (an LF not already
preceded by CR) to CRLF.  This definition follows the spec's words and exists
only to be compared with the source's `lfToCrlfAll`. -/
def bareLfToCrlf : List Char → List Char
  | [] => []
  | '\r' :: '\n' :: cs => '\r' :: '\n' :: bareLfToCrlf cs
  | '\n' :: cs => '\r' :: '\n' :: bareLfToCrlf cs
  | c :: cs => c :: bareLfToCrlf cs

/-- ASCII upper-casing of one character, as Go `strings.ToUpper` does on the
configuration values in play. -/
def asciiUpperChar (c : Char) : Char :=
  if 'a' ≤ c ∧ c ≤ 'z' then Char.ofNat (c.toNat - 32) else c

/-- Embedding of `parseBool` (config source): `YES` and `NO` after
upper-casing; anything else is the error return, modelled as `none`. -/
def parseBool (b : List Char) : Option Bool :=
  let u := b.map asciiUpperChar
  if u = chars "YES" then some true
  else if u = chars "NO" then some false
  else none

/-- Model of Go `fmt.Sscanf(s, "%d", &x)` into an `int` variable: leading
spaces skipped, an optional minus sign, then a digit run; `none` models the
scan error. -/
def sscanfInt (s : List Char) : Option Int :=
  let t := s.dropWhile (fun c => c = ' ')
  match t with
  | '-' :: rest =>
    if rest.takeWhile isDigitChar = [] then none
    else some (-(digitsToNat (rest.takeWhile isDigitChar) : Int))
  | _ =>
    if t.takeWhile isDigitChar = [] then none
    else some ((digitsToNat (t.takeWhile isDigitChar) : Int))

/-- The server configuration record built by `loadConfig`. -/
structure GoConfig where
  logDir : List Char
  nLogFiles : Int
  usersFile : List Char
  port : Bool
  pasv : Bool
deriving DecidableEq

/-- Result of the configuration loader; `crash` models the Go index-out-of-range
fault on `line[0]`. -/
inductive LoadRes
  | crash
  | ok (c : GoConfig)
deriving DecidableEq

/-- The defaults `loadConfig` starts from. -/
def loadConfigBase : GoConfig :=
  { logDir := chars "/var/spool/logfiles", nLogFiles := 5, usersFile := [],
    port := false, pasv := true }

/-- Embedding of the scan loop of `loadConfig` (config source): each line is
tested for a leading `#` by indexing its first byte, split on `=`, and matched
against the recognized keys; unrecognized or malformed lines are skipped. -/
def loadConfigLoop (c : GoConfig) : List (List Char) → LoadRes
  | [] => .ok c
  | line :: rest =>
    match line with
    | [] => .crash
    | ch :: _ =>
      if ch = '#' then loadConfigLoop c rest
      else
        match splitOnChar '=' line with
        | [key, value] =>
          if key = chars "logdirectory" then loadConfigLoop { c with logDir := value } rest
          else if key = chars "numlogfiles" then
            match sscanfInt value with
            | none => loadConfigLoop { c with nLogFiles := 5 } rest
            | some v => loadConfigLoop { c with nLogFiles := v } rest
          else if key = chars "usernamefile" then
            loadConfigLoop { c with usersFile := value } rest
          else if key = chars "port_mode" then
            match parseBool value with
            | none => loadConfigLoop c rest
            | some b => loadConfigLoop { c with port := b } rest
          else if key = chars "pasv_mode" then
            match parseBool value with
            | none => loadConfigLoop c rest
            | some b => loadConfigLoop { c with pasv := b } rest
          else loadConfigLoop c rest
        | _ => loadConfigLoop c rest

/-- Embedding of `loadConfig` (config source) applied to the scanned lines of
the file text. -/
def loadConfig (lines : List (List Char)) : LoadRes :=
  loadConfigLoop loadConfigBase lines

/-- Result of a Go `os.Lstat` call, restricted to the mode bits the handlers
inspect. -/
structure FileInfo where
  isDir : Bool
  isRegular : Bool
deriving DecidableEq

/-- The session's data connection as stored in the handler: the active variant
holds the dial target, the passive variant holds the control peer's host
recorded at setup time. -/
inductive ServerDataConn
  | active (addr : List Char)
  | passive (expectedIP : List Char)
deriving DecidableEq

/-- External world oracle for one handler invocation: filesystem answers, the
`ls -l` output, the result of the data-connection write, the listener address
obtained by a passive setup (`none` models a `net.Listen` failure), and the
control connection's remote address. -/
structure World where
  lstat : List Char → Option FileInfo
  readFile : List Char → Option (List Char)
  lsOutput : List Char → Option (List Char)
  dataWriteOk : Bool
  passiveListenAddr : Option (List Char)
  controlRemoteAddr : List Char

/-- Mutable state of one server session handler. -/
structure HState where
  username : List Char
  dir : List Char
  isLoggedIn : Bool
  tableLoggedIn : Bool
  dataConn : ServerDataConn
deriving DecidableEq

/-- Observable control- and data-channel output of one handler invocation. -/
inductive Event
  | reply (code msg : List Char)
  | dataWrite (data : List Char)
deriving DecidableEq

/-- Result of one handler invocation: the new session state, the emitted
events in order, whether the Go code faulted, and whether the session was
closed. -/
structure Outcome where
  st : HState
  events : List Event
  crashed : Bool
  closed : Bool
deriving DecidableEq

/-- Normal outcome with neither a fault nor a close. -/
def okOut (st : HState) (events : List Event) : Outcome :=
  ⟨st, events, false, false⟩

/-- The `501 Error in arguments.` reply of `writeError501Args`. -/
def reply501Args : Event := .reply (chars "501") (chars "Error in arguments.")

/-- The `530` reply of `writeError530NotLoggedIn`. -/
def reply530NotLoggedIn : Event :=
  .reply (chars "530") (chars "Log in with USER and PASS first.")

/-- The `550 File action failed.` reply of `writeError550FileAction`. -/
def reply550FileAction : Event := .reply (chars "550") (chars "File action failed.")

/-- The `421` reply of `writeError421Server`. -/
def reply421Server : Event := .reply (chars "421") (chars "An internal error occurred.")

/-- Embedding of `HandleUSER`: an empty argument is a `501`; repeating the
logged-in user's name replies `230`; otherwise the username is stored and
`331` asks for the password.  Nothing here touches the logged-in flag or the
dispatch table. -/
def HandleUSER (st : HState) (username : List Char) : Outcome :=
  if username = [] then okOut st [reply501Args]
  else if username = st.username ∧ st.isLoggedIn then
    okOut st [.reply (chars "230") (chars "User already logged in.")]
  else
    okOut { st with username := username }
      [.reply (chars "331")
        (chars "Username " ++ username ++ chars " accepted, please provide the password.")]

/-- Embedding of `HandlePASS`: without a stored username the reply is `503`;
a wrong or unknown password clears the username and replies `530`; a match
swaps in the logged-in command table, sets the flag, and replies `230`. -/
def HandlePASS (users : List Char → Option (List Char)) (st : HState)
    (password : List Char) : Outcome :=
  if st.username = [] then
    okOut st [.reply (chars "503") (chars "Log in with USER first.")]
  else
    match users st.username with
    | none =>
      okOut { st with username := [] } [.reply (chars "530") (chars "Login incorrect.")]
    | some pass =>
      if password ≠ pass then
        okOut { st with username := [] } [.reply (chars "530") (chars "Login incorrect.")]
      else
        okOut { st with isLoggedIn := true, tableLoggedIn := true }
          [.reply (chars "230") (chars "Login successful.")]

/-- Embedding of `HandlePWD`. -/
def HandlePWD (st : HState) (arg : List Char) : Outcome :=
  if arg ≠ [] then okOut st [reply501Args]
  else
    okOut st
      [.reply (chars "257") (chars "\"" ++ st.dir ++ chars "\" is the current directory.")]

/-- Embedding of `HandleCWD`: a relative argument is joined to the current
directory, an absolute one is used verbatim; the path must stat as a
directory, and on success it is stored as the new current directory. -/
def HandleCWD (w : World) (st : HState) (dir : List Char) : Outcome :=
  let p := if pathIsAbs dir then dir else pathJoin2 st.dir dir
  match w.lstat p with
  | none => okOut st [.reply (chars "550") (chars "Directory change failed.")]
  | some info =>
    if ¬ info.isDir then
      okOut st [.reply (chars "550") (dir ++ chars ": Not a directory.")]
    else
      okOut { st with dir := p } [.reply (chars "250") (chars "Directory change successful.")]

/-- Embedding of `HandleCDUP`: a nonempty argument is a `501`, otherwise the
command behaves as `CWD ..`. -/
def HandleCDUP (w : World) (st : HState) (arg : List Char) : Outcome :=
  if arg ≠ [] then okOut st [reply501Args]
  else HandleCWD w st (chars "..")

/-- Embedding of `HandlePORT`. -/
def HandlePORT (cfg : GoConfig) (st : HState) (args : List Char) : Outcome :=
  if ¬ cfg.port then okOut st [.reply (chars "550") (chars "PORT mode not available.")]
  else
    match hostPortToAddr args with
    | none => okOut st [reply501Args]
    | some addr =>
      okOut { st with dataConn := .active addr }
        [.reply (chars "200") (chars "PORT command accepted.")]

/-- Embedding of `HandleEPRT`: the address-family error maps to `522`, other
parse errors to `501`; an empty argument faults inside `parseEPRTArg`. -/
def HandleEPRT (cfg : GoConfig) (st : HState) (args : List Char) : Outcome :=
  if ¬ cfg.port then okOut st [.reply (chars "550") (chars "EPRT mode not available")]
  else
    match parseEPRTArg args with
    | .crash => ⟨st, [], true, false⟩
    | .badFamily =>
      okOut st [.reply (chars "522") (chars "Unrecognized address family identifier.")]
    | .badString => okOut st [reply501Args]
    | .addr a =>
      okOut { st with dataConn := .active a }
        [.reply (chars "200") (chars "EPRT command accepted.")]

/-- Embedding of `initPassiveDataConn`: open a listener (the oracle may fail),
record the control peer's host as the expected data peer (the split error is
ignored by the source), and return the listener address. -/
def initPassiveDataConn (w : World) (st : HState) : Option (HState × List Char) :=
  match w.passiveListenAddr with
  | none => none
  | some lnAddr =>
    let expIP := match splitHostPort w.controlRemoteAddr with
      | some hp => hp.1
      | none => []
    some ({ st with dataConn := .passive expIP }, lnAddr)

/-- Embedding of `HandlePASV`; note that the source passes the full
`host:port` listener address to `net.ParseIP`, so the IPv4 test is against
that whole string. -/
def HandlePASV (w : World) (cfg : GoConfig) (st : HState) (arg : List Char) : Outcome :=
  if ¬ cfg.pasv then okOut st [.reply (chars "550") (chars "PASV mode not available")]
  else if arg ≠ [] then okOut st [reply501Args]
  else
    match initPassiveDataConn w st with
    | none => okOut st [reply421Server]
    | some (st', addr) =>
      match splitHostPort addr with
      | none => okOut st' [reply421Server]
      | some hp =>
        let isV4 := match parseIP addr with
          | some ip => (goTo4 ip).isSome
          | none => false
        if isV4 = false then
          okOut st' [.reply (chars "421") (chars "PASV failed, use EPSV.")]
        else
          match getPORTString hp.1 hp.2 with
          | none => okOut st' [reply421Server]
          | some msg =>
            okOut st'
              [.reply (chars "227") (chars "Entering Passive Mode (" ++ msg ++ chars ").")]

/-- Embedding of `HandleEPSV`. -/
def HandleEPSV (w : World) (cfg : GoConfig) (st : HState) (arg : List Char) : Outcome :=
  if ¬ cfg.pasv then okOut st [.reply (chars "550") (chars "PASV mode not available")]
  else if arg ≠ [] then okOut st [reply501Args]
  else
    match initPassiveDataConn w st with
    | none => okOut st [.reply (chars "421") (chars "EPSV command failed.")]
    | some (st', addr) =>
      match splitHostPort addr with
      | none => okOut st' [.reply (chars "421") (chars "EPSV command failed.")]
      | some hp =>
        okOut st'
          [.reply (chars "229")
            (chars "Entering Extended Passive Mode (|||" ++ hp.2 ++ chars "|).")]

/-- Embedding of `HandleLIST`: resolve the directory, require it to stat as a
directory, obtain the `ls -l` output, convert every LF to CRLF, reply `150`,
write through the data channel, then reply `226` or `451`. -/
def HandleLIST (w : World) (st : HState) (dir : List Char) : Outcome :=
  let p := if dir = [] then st.dir
    else if pathIsAbs dir then dir else pathJoin2 st.dir dir
  match w.lstat p with
  | none => okOut st [.reply (chars "550") (chars "Directory listing failed.")]
  | some info =>
    if ¬ info.isDir then
      okOut st [.reply (chars "550") (dir ++ chars ": not a directory")]
    else
      match w.lsOutput p with
      | none => okOut st [.reply (chars "550") (chars "Directory listing failed.")]
      | some listing =>
        let data := lfToCrlfAll listing
        okOut st
          (.reply (chars "150") (chars "Here comes the directory listing.") ::
            .dataWrite data ::
            (if w.dataWriteOk then
              [.reply (chars "226") (chars "Listing successfully transfered.")]
            else [.reply (chars "451") (chars "Failed to open data connection.")]))

/-- Embedding of `HandleRETR`: resolve the path, require a regular file, read
it, convert every LF to CRLF, reply `150`, write through the data channel,
then reply `226` or `451`; stat, mode, and read failures reply `550`. -/
def HandleRETR (w : World) (st : HState) (file : List Char) : Outcome :=
  let p := if pathIsAbs file then file else pathJoin2 st.dir file
  match w.lstat p with
  | none => okOut st [reply550FileAction]
  | some info =>
    if ¬ info.isRegular then okOut st [reply550FileAction]
    else
      match w.readFile p with
      | none => okOut st [reply550FileAction]
      | some data =>
        let d := lfToCrlfAll data
        okOut st
          (.reply (chars "150") (chars "Here comes the file.") ::
            .dataWrite d ::
            (if w.dataWriteOk then
              [.reply (chars "226") (chars "File transfered successfully.")]
            else [.reply (chars "451") (chars "Error occurred in transfer.")]))

/-- Embedding of `HandleHELP`. -/
def HandleHELP (st : HState) (arg : List Char) : Outcome :=
  if arg ≠ [] then okOut st [reply501Args]
  else
    okOut st
      [.reply (chars "214")
        (chars "The following commands are recogized:\nUSER   PASS   CWD    CDUP   PWD\nPASV   EPSV   PORT   EPRT   RETR\nLIST   HELP   QUIT")]

/-- Embedding of `HandleQUIT`: a goodbye reply and session close. -/
def HandleQUIT (st : HState) : Outcome :=
  ⟨st, [.reply (chars "221") (chars "Goodbye.")], false, true⟩

/-- Entries of the command dispatch tables; `errNotLoggedIn` is the
`writeError530NotLoggedIn` handler installed for privileged commands in the
pre-auth table. -/
inductive TableEntry
  | cUSER | cPASS | cHELP | cPWD | cCWD | cCDUP | cPORT | cEPRT
  | cPASV | cEPSV | cLIST | cRETR | cQUIT | errNotLoggedIn
deriving DecidableEq

/-- Embedding of `initCommandTable`: the pre-auth table maps login and help
commands to their handlers and every other recognized command to
`writeError530NotLoggedIn`. -/
def tablePreAuth (code : List Char) : Option TableEntry :=
  if code = chars "USER" then some .cUSER
  else if code = chars "PASS" then some .cPASS
  else if code = chars "HELP" then some .cHELP
  else if code = chars "PWD" then some .errNotLoggedIn
  else if code = chars "CWD" then some .errNotLoggedIn
  else if code = chars "CDUP" then some .errNotLoggedIn
  else if code = chars "PORT" then some .errNotLoggedIn
  else if code = chars "EPRT" then some .errNotLoggedIn
  else if code = chars "PASV" then some .errNotLoggedIn
  else if code = chars "EPSV" then some .errNotLoggedIn
  else if code = chars "LIST" then some .errNotLoggedIn
  else if code = chars "RETR" then some .errNotLoggedIn
  else if code = chars "QUIT" then some .cQUIT
  else none

/-- Embedding of `initCommandTableLoggedIn`: every recognized command is
routed to its own handler. -/
def tableLoggedIn (code : List Char) : Option TableEntry :=
  if code = chars "USER" then some .cUSER
  else if code = chars "PASS" then some .cPASS
  else if code = chars "HELP" then some .cHELP
  else if code = chars "PWD" then some .cPWD
  else if code = chars "CWD" then some .cCWD
  else if code = chars "CDUP" then some .cCDUP
  else if code = chars "PORT" then some .cPORT
  else if code = chars "EPRT" then some .cEPRT
  else if code = chars "PASV" then some .cPASV
  else if code = chars "EPSV" then some .cEPSV
  else if code = chars "LIST" then some .cLIST
  else if code = chars "RETR" then some .cRETR
  else if code = chars "QUIT" then some .cQUIT
  else none

/-- Run one table entry on the given argument. -/
def runEntry (w : World) (cfg : GoConfig) (users : List Char → Option (List Char))
    (st : HState) (arg : List Char) : TableEntry → Outcome
  | .cUSER => HandleUSER st arg
  | .cPASS => HandlePASS users st arg
  | .cHELP => HandleHELP st arg
  | .cPWD => HandlePWD st arg
  | .cCWD => HandleCWD w st arg
  | .cCDUP => HandleCDUP w st arg
  | .cPORT => HandlePORT cfg st arg
  | .cEPRT => HandleEPRT cfg st arg
  | .cPASV => HandlePASV w cfg st arg
  | .cEPSV => HandleEPSV w cfg st arg
  | .cLIST => HandleLIST w st arg
  | .cRETR => HandleRETR w st arg
  | .cQUIT => HandleQUIT st
  | .errNotLoggedIn => okOut st [reply530NotLoggedIn]

/-- Embedding of the dispatch step of `handle`: `QUIT` is intercepted before
the table lookup, a missing table entry replies `500`, and otherwise the
installed handler runs.  The command code has already been upper-cased. -/
def dispatch (w : World) (cfg : GoConfig) (users : List Char → Option (List Char))
    (st : HState) (code arg : List Char) : Outcome :=
  if code = chars "QUIT" then HandleQUIT st
  else
    match (if st.tableLoggedIn then tableLoggedIn code else tablePreAuth code) with
    | none => okOut st [.reply (chars "500") (code ++ chars ": command not recognized.")]
    | some entry => runEntry w cfg users st arg entry

/-- The thirteen recognized command codes (the `CommandCode` constants). -/
def recognizedCodes : List (List Char) :=
  [chars "USER", chars "PASS", chars "CWD", chars "CDUP", chars "QUIT",
   chars "PASV", chars "EPSV", chars "PORT", chars "EPRT", chars "RETR",
   chars "PWD", chars "LIST", chars "HELP"]

/-- Embedding of the session-state initialization in `newHandler`: no
username, not logged in, the pre-auth table installed, and the current
directory set to the server process working directory; the initial data
connection is configured separately from the configuration. -/
def newHandlerState (wd : List Char) (dc : ServerDataConn) : HState :=
  { username := [], dir := wd, isLoggedIn := false, tableLoggedIn := false, dataConn := dc }

/-- Observable actions of a server data connection write. -/
inductive DataEvent
  | accepted (addr : List Char)
  | wrote (data : List Char)
  | closedConn
deriving DecidableEq

/-- Success or error result of a data connection write. -/
inductive WriteRes
  | ok
  | err (msg : List Char)
deriving DecidableEq

/-- Embedding of `serverPassiveDataConn.write`: accept one connection (the
oracle gives its remote address, or `none` for an accept failure), split the
peer address, refuse a peer whose host differs from the recorded control
peer host, and only then write the payload and close. -/
def passiveDataConnWrite (expectedIP : List Char) (acceptRes : Option (List Char))
    (writeOk : Bool) (msg : List Char) : WriteRes × List DataEvent :=
  match acceptRes with
  | none => (.err (chars "accept failed"), [])
  | some remoteAddr =>
    let evs := [DataEvent.accepted remoteAddr]
    match splitHostPort remoteAddr with
    | none => (.err (chars "address split failed"), evs)
    | some hp =>
      if hp.1 ≠ expectedIP then
        (.err (chars "Unexpeted data client: want " ++ expectedIP ++ chars " got " ++ hp.1),
          evs)
      else if writeOk then (.ok, evs ++ [.wrote msg, .closedConn])
      else (.err (chars "write failed"), evs ++ [.wrote msg])

/-! Concrete fixtures used by witnesses and counterexamples. -/

/-- A user map with the single entry `alice`/`secret`. -/
def usersAlice : List Char → Option (List Char) :=
  fun u => if u = chars "alice" then some (chars "secret") else none

/-- A world whose filesystem and listener oracles all fail; enough for
commands that do not touch them. -/
def trivialWorld : World :=
  { lstat := fun _ => none, readFile := fun _ => none, lsOutput := fun _ => none,
    dataWriteOk := true, passiveListenAddr := none,
    controlRemoteAddr := chars "10.0.0.9:50000" }

/-- A configuration with both data-connection modes enabled. -/
def cfgBoth : GoConfig :=
  { logDir := [], nLogFiles := 5, usersFile := [], port := true, pasv := true }

/-- A session logged in as `alice` with the logged-in table installed. -/
def stLogged : HState :=
  { username := chars "alice", dir := chars "/", isLoggedIn := true,
    tableLoggedIn := true, dataConn := .active (chars "10.0.0.9:50001") }

/-- A fresh pre-auth session. -/
def stPre : HState :=
  { username := [], dir := chars "/", isLoggedIn := false,
    tableLoggedIn := false, dataConn := .active [] }

/-- C1: with the pre-auth table installed, dispatching any recognized command
other than USER, PASS, HELP, QUIT emits exactly one reply, that reply is the
530 not-logged-in reply, and the session state is untouched. -/
theorem c1_preauth_530 (w : World) (cfg : GoConfig)
    (users : List Char → Option (List Char)) (st : HState) (code arg : List Char)
    (htab : st.tableLoggedIn = false)
    (hrec : code ∈ recognizedCodes)
    (hne : code ∉ [chars "USER", chars "PASS", chars "HELP", chars "QUIT"]) :
    (dispatch w cfg users st code arg).events = [reply530NotLoggedIn]
    ∧ (dispatch w cfg users st code arg).st = st
    ∧ (dispatch w cfg users st code arg).crashed = false := by
  obtain ⟨u, d, li, tl, dc⟩ := st
  have h : tl = false := htab
  subst h
  simp only [recognizedCodes] at hrec
  fin_cases hrec <;>
    first
      | exact absurd (by decide) hne
      | exact ⟨rfl, rfl, rfl⟩

/-- C1 witness: the PWD command at a concrete pre-auth session. -/
theorem c1_preauth_530_witness :
    (dispatch trivialWorld cfgBoth usersAlice stPre (chars "PWD") []).events
      = [reply530NotLoggedIn]
    ∧ (dispatch trivialWorld cfgBoth usersAlice stPre (chars "PWD") []).st = stPre
    ∧ (dispatch trivialWorld cfgBoth usersAlice stPre (chars "PWD") []).crashed = false :=
  c1_preauth_530 trivialWorld cfgBoth usersAlice stPre (chars "PWD") []
    (by decide) (by decide) (by decide)

/-- C2 counterexample: a session logged in as `alice` processes `USER bob`;
the logged-in flag and the logged-in dispatch table survive, and a following
PWD is answered with `257` rather than a login demand, so USER does not reset
the password-accepted state. -/
theorem c2_user_keeps_login_counterexample :
    (dispatch trivialWorld cfgBoth usersAlice stLogged (chars "USER") (chars "bob")).st.isLoggedIn
      = true
    ∧ (dispatch trivialWorld cfgBoth usersAlice stLogged
        (chars "USER") (chars "bob")).st.tableLoggedIn = true
    ∧ (dispatch trivialWorld cfgBoth usersAlice stLogged
        (chars "USER") (chars "bob")).st.username = chars "bob"
    ∧ (dispatch trivialWorld cfgBoth usersAlice
        (dispatch trivialWorld cfgBoth usersAlice stLogged (chars "USER") (chars "bob")).st
        (chars "PWD") []).events
      = [Event.reply (chars "257") (chars "\"/\" is the current directory.")] := by
  decide

/-- C9: the EPRT handler is not total: on an empty argument `parseEPRTArg`
indexes the first byte of the argument and faults, so a logged-in session
with PORT mode enabled crashes without writing any reply. -/
theorem c9_eprt_empty_crash :
    parseEPRTArg [] = EPRTRes.crash
    ∧ (dispatch trivialWorld cfgBoth usersAlice stLogged (chars "EPRT") []).crashed = true
    ∧ (dispatch trivialWorld cfgBoth usersAlice stLogged (chars "EPRT") []).events = [] := by
  decide

/-- C10: the configuration loader faults on a file containing an empty line
(`line[0]` indexes an empty string), while comment lines and unrecognized
lines are indeed skipped. -/
theorem c10_config_empty_line_crash :
    loadConfig [chars "port_mode=YES", []] = LoadRes.crash
    ∧ loadConfig [chars "# comment", chars "port_mode=YES", chars "garbage",
        chars "pasv_mode=NO"]
      = LoadRes.ok { loadConfigBase with port := true, pasv := false } := by
  decide

/-! Preservation of the authentication flags by the individual handlers. -/

theorem HandleUSER_flags (st : HState) (u : List Char) :
    (HandleUSER st u).st.isLoggedIn = st.isLoggedIn
    ∧ (HandleUSER st u).st.tableLoggedIn = st.tableLoggedIn := by
  unfold HandleUSER okOut
  split_ifs <;> exact ⟨rfl, rfl⟩

theorem HandlePWD_isLoggedIn (st : HState) (a : List Char) :
    (HandlePWD st a).st.isLoggedIn = st.isLoggedIn := by
  unfold HandlePWD okOut
  split_ifs <;> rfl

theorem HandleHELP_isLoggedIn (st : HState) (a : List Char) :
    (HandleHELP st a).st.isLoggedIn = st.isLoggedIn := by
  unfold HandleHELP okOut
  split_ifs <;> rfl

theorem HandleCWD_isLoggedIn (w : World) (st : HState) (d : List Char) :
    (HandleCWD w st d).st.isLoggedIn = st.isLoggedIn := by
  unfold HandleCWD okOut
  dsimp only
  repeat' split
  all_goals rfl

theorem HandleCDUP_isLoggedIn (w : World) (st : HState) (a : List Char) :
    (HandleCDUP w st a).st.isLoggedIn = st.isLoggedIn := by
  unfold HandleCDUP okOut
  split_ifs
  · rfl
  · exact HandleCWD_isLoggedIn w st (chars "..")

theorem HandlePORT_isLoggedIn (cfg : GoConfig) (st : HState) (a : List Char) :
    (HandlePORT cfg st a).st.isLoggedIn = st.isLoggedIn := by
  unfold HandlePORT okOut
  split
  · rfl
  · split <;> rfl

theorem HandleEPRT_isLoggedIn (cfg : GoConfig) (st : HState) (a : List Char) :
    (HandleEPRT cfg st a).st.isLoggedIn = st.isLoggedIn := by
  unfold HandleEPRT okOut
  split
  · rfl
  · split <;> rfl

theorem HandlePASV_isLoggedIn (w : World) (cfg : GoConfig) (st : HState) (a : List Char) :
    (HandlePASV w cfg st a).st.isLoggedIn = st.isLoggedIn := by
  unfold HandlePASV initPassiveDataConn okOut
  dsimp only
  split_ifs
  all_goals try rfl
  rcases hw : w.passiveListenAddr with _ | lnAddr
  · rfl
  · dsimp only
    repeat' split
    all_goals rfl

theorem HandleEPSV_isLoggedIn (w : World) (cfg : GoConfig) (st : HState) (a : List Char) :
    (HandleEPSV w cfg st a).st.isLoggedIn = st.isLoggedIn := by
  unfold HandleEPSV initPassiveDataConn okOut
  dsimp only
  split_ifs
  all_goals try rfl
  rcases hw : w.passiveListenAddr with _ | lnAddr
  · rfl
  · dsimp only
    repeat' split
    all_goals rfl

theorem HandleLIST_isLoggedIn (w : World) (st : HState) (d : List Char) :
    (HandleLIST w st d).st.isLoggedIn = st.isLoggedIn := by
  unfold HandleLIST okOut
  dsimp only
  repeat' split
  all_goals rfl

theorem HandleRETR_isLoggedIn (w : World) (st : HState) (f : List Char) :
    (HandleRETR w st f).st.isLoggedIn = st.isLoggedIn := by
  unfold HandleRETR okOut
  dsimp only
  repeat' split
  all_goals rfl

theorem HandleQUIT_isLoggedIn (st : HState) :
    (HandleQUIT st).st.isLoggedIn = st.isLoggedIn := rfl

/-- The logged-in flag after `HandlePASS` is only set when it already was, or
when a nonempty stored username carried the matching password. -/
theorem HandlePASS_isLoggedIn_true {users : List Char → Option (List Char)}
    {st : HState} {pw : List Char}
    (h : (HandlePASS users st pw).st.isLoggedIn = true) :
    st.isLoggedIn = true ∨ (st.username ≠ [] ∧ users st.username = some pw) := by
  unfold HandlePASS okOut at h
  split_ifs at h with h1
  · exact Or.inl h
  · rcases hu : users st.username with _ | p
    · rw [hu] at h
      dsimp only at h
      exact Or.inl h
    · rw [hu] at h
      dsimp only at h
      split_ifs at h with h2
      · exact Or.inl h
      · refine Or.inr ⟨h1, ?_⟩
        rw [not_not.mp h2]

theorem ite_some_inv {α : Type} {c : Prop} [Decidable c] {a b x : α}
    (h : (if c then a else b) = x) : (c ∧ a = x) ∨ b = x := by
  by_cases hc : c
  · rw [if_pos hc] at h
    exact Or.inl ⟨hc, h⟩
  · rw [if_neg hc] at h
    exact Or.inr h

theorem tablePreAuth_pass {code : List Char}
    (h : tablePreAuth code = some TableEntry.cPASS) : code = chars "PASS" := by
  unfold tablePreAuth at h
  rcases ite_some_inv h with ⟨_, he⟩ | h
  · exact TableEntry.noConfusion (Option.some.inj he)
  rcases ite_some_inv h with ⟨hc, _⟩ | h
  · exact hc
  rcases ite_some_inv h with ⟨_, he⟩ | h
  · exact TableEntry.noConfusion (Option.some.inj he)
  rcases ite_some_inv h with ⟨_, he⟩ | h
  · exact TableEntry.noConfusion (Option.some.inj he)
  rcases ite_some_inv h with ⟨_, he⟩ | h
  · exact TableEntry.noConfusion (Option.some.inj he)
  rcases ite_some_inv h with ⟨_, he⟩ | h
  · exact TableEntry.noConfusion (Option.some.inj he)
  rcases ite_some_inv h with ⟨_, he⟩ | h
  · exact TableEntry.noConfusion (Option.some.inj he)
  rcases ite_some_inv h with ⟨_, he⟩ | h
  · exact TableEntry.noConfusion (Option.some.inj he)
  rcases ite_some_inv h with ⟨_, he⟩ | h
  · exact TableEntry.noConfusion (Option.some.inj he)
  rcases ite_some_inv h with ⟨_, he⟩ | h
  · exact TableEntry.noConfusion (Option.some.inj he)
  rcases ite_some_inv h with ⟨_, he⟩ | h
  · exact TableEntry.noConfusion (Option.some.inj he)
  rcases ite_some_inv h with ⟨_, he⟩ | h
  · exact TableEntry.noConfusion (Option.some.inj he)
  rcases ite_some_inv h with ⟨_, he⟩ | h
  · exact TableEntry.noConfusion (Option.some.inj he)
  exact Option.noConfusion h

theorem tableLoggedIn_pass {code : List Char}
    (h : tableLoggedIn code = some TableEntry.cPASS) : code = chars "PASS" := by
  unfold tableLoggedIn at h
  rcases ite_some_inv h with ⟨_, he⟩ | h
  · exact TableEntry.noConfusion (Option.some.inj he)
  rcases ite_some_inv h with ⟨hc, _⟩ | h
  · exact hc
  rcases ite_some_inv h with ⟨_, he⟩ | h
  · exact TableEntry.noConfusion (Option.some.inj he)
  rcases ite_some_inv h with ⟨_, he⟩ | h
  · exact TableEntry.noConfusion (Option.some.inj he)
  rcases ite_some_inv h with ⟨_, he⟩ | h
  · exact TableEntry.noConfusion (Option.some.inj he)
  rcases ite_some_inv h with ⟨_, he⟩ | h
  · exact TableEntry.noConfusion (Option.some.inj he)
  rcases ite_some_inv h with ⟨_, he⟩ | h
  · exact TableEntry.noConfusion (Option.some.inj he)
  rcases ite_some_inv h with ⟨_, he⟩ | h
  · exact TableEntry.noConfusion (Option.some.inj he)
  rcases ite_some_inv h with ⟨_, he⟩ | h
  · exact TableEntry.noConfusion (Option.some.inj he)
  rcases ite_some_inv h with ⟨_, he⟩ | h
  · exact TableEntry.noConfusion (Option.some.inj he)
  rcases ite_some_inv h with ⟨_, he⟩ | h
  · exact TableEntry.noConfusion (Option.some.inj he)
  rcases ite_some_inv h with ⟨_, he⟩ | h
  · exact TableEntry.noConfusion (Option.some.inj he)
  rcases ite_some_inv h with ⟨_, he⟩ | h
  · exact TableEntry.noConfusion (Option.some.inj he)
  exact Option.noConfusion h

/-- C2 (amended): processing USER never resets the password-accepted state:
the logged-in flag and the installed dispatch table are unchanged by every
USER command.  What does hold of the flag is that from a not-logged-in session
the only command that sets it is a PASS carrying the password that matches the
nonempty stored username. -/
theorem c2_login_flag_amended (w : World) (cfg : GoConfig)
    (users : List Char → Option (List Char)) (st : HState) (code arg : List Char) :
    ((dispatch w cfg users st (chars "USER") arg).st.isLoggedIn = st.isLoggedIn
      ∧ (dispatch w cfg users st (chars "USER") arg).st.tableLoggedIn = st.tableLoggedIn)
    ∧ (st.isLoggedIn = false →
        (dispatch w cfg users st code arg).st.isLoggedIn = true →
        code = chars "PASS" ∧ st.username ≠ [] ∧ users st.username = some arg) := by
  constructor
  · have hd : dispatch w cfg users st (chars "USER") arg = HandleUSER st arg := by
      obtain ⟨u, d, li, tl, dc⟩ := st
      cases tl <;> rfl
    rw [hd]
    exact HandleUSER_flags st arg
  · intro hli hafter
    have contra : st.isLoggedIn = true →
        code = chars "PASS" ∧ st.username ≠ [] ∧ users st.username = some arg := by
      intro h
      rw [hli] at h
      exact Bool.noConfusion h
    by_cases hq : code = chars "QUIT"
    · have hd : dispatch w cfg users st code arg = HandleQUIT st := by
        unfold dispatch
        rw [if_pos hq]
      rw [hd] at hafter
      exact contra hafter
    · have hd : dispatch w cfg users st code arg =
          match (if st.tableLoggedIn then tableLoggedIn code else tablePreAuth code) with
          | none =>
            okOut st [.reply (chars "500") (code ++ chars ": command not recognized.")]
          | some entry => runEntry w cfg users st arg entry := by
        unfold dispatch
        rw [if_neg hq]
      rw [hd] at hafter
      rcases htl : (if st.tableLoggedIn then tableLoggedIn code else tablePreAuth code)
        with _ | entry
      · rw [htl] at hafter
        dsimp only [okOut] at hafter
        exact contra hafter
      · rw [htl] at hafter
        dsimp only at hafter
        cases entry with
        | cUSER =>
          dsimp only [runEntry] at hafter
          rw [(HandleUSER_flags st arg).1] at hafter
          exact contra hafter
        | cPASS =>
          dsimp only [runEntry] at hafter
          rcases HandlePASS_isLoggedIn_true hafter with h | ⟨h1, h2⟩
          · exact contra h
          · refine ⟨?_, h1, h2⟩
            cases hb : st.tableLoggedIn
            · rw [hb] at htl
              simp only [Bool.false_eq_true, if_false] at htl
              exact tablePreAuth_pass htl
            · rw [hb] at htl
              simp only [if_true] at htl
              exact tableLoggedIn_pass htl
        | cHELP =>
          dsimp only [runEntry] at hafter
          rw [HandleHELP_isLoggedIn st arg] at hafter
          exact contra hafter
        | cPWD =>
          dsimp only [runEntry] at hafter
          rw [HandlePWD_isLoggedIn st arg] at hafter
          exact contra hafter
        | cCWD =>
          dsimp only [runEntry] at hafter
          rw [HandleCWD_isLoggedIn w st arg] at hafter
          exact contra hafter
        | cCDUP =>
          dsimp only [runEntry] at hafter
          rw [HandleCDUP_isLoggedIn w st arg] at hafter
          exact contra hafter
        | cPORT =>
          dsimp only [runEntry] at hafter
          rw [HandlePORT_isLoggedIn cfg st arg] at hafter
          exact contra hafter
        | cEPRT =>
          dsimp only [runEntry] at hafter
          rw [HandleEPRT_isLoggedIn cfg st arg] at hafter
          exact contra hafter
        | cPASV =>
          dsimp only [runEntry] at hafter
          rw [HandlePASV_isLoggedIn w cfg st arg] at hafter
          exact contra hafter
        | cEPSV =>
          dsimp only [runEntry] at hafter
          rw [HandleEPSV_isLoggedIn w cfg st arg] at hafter
          exact contra hafter
        | cLIST =>
          dsimp only [runEntry] at hafter
          rw [HandleLIST_isLoggedIn w st arg] at hafter
          exact contra hafter
        | cRETR =>
          dsimp only [runEntry] at hafter
          rw [HandleRETR_isLoggedIn w st arg] at hafter
          exact contra hafter
        | cQUIT =>
          dsimp only [runEntry] at hafter
          rw [HandleQUIT_isLoggedIn st] at hafter
          exact contra hafter
        | errNotLoggedIn =>
          dsimp only [runEntry, okOut] at hafter
          exact contra hafter

/-- C2 witness: the amended statement at a concrete pre-auth session where
PASS with the matching password does log in. -/
theorem c2_login_flag_amended_witness :
    ((dispatch trivialWorld cfgBoth usersAlice
        { stPre with username := chars "alice" } (chars "USER") (chars "secret")).st.isLoggedIn
      = { stPre with username := chars "alice" : HState }.isLoggedIn
      ∧ (dispatch trivialWorld cfgBoth usersAlice
          { stPre with username := chars "alice" } (chars "USER") (chars "secret")).st.tableLoggedIn
        = { stPre with username := chars "alice" : HState }.tableLoggedIn)
    ∧ ({ stPre with username := chars "alice" : HState }.isLoggedIn = false →
        (dispatch trivialWorld cfgBoth usersAlice
          { stPre with username := chars "alice" } (chars "PASS") (chars "secret")).st.isLoggedIn
          = true →
        chars "PASS" = chars "PASS"
        ∧ { stPre with username := chars "alice" : HState }.username ≠ []
        ∧ usersAlice { stPre with username := chars "alice" : HState }.username
          = some (chars "secret")) :=
  c2_login_flag_amended trivialWorld cfgBoth usersAlice
    { stPre with username := chars "alice" } (chars "PASS") (chars "secret")

/-- C3: a passive data-connection write accepts exactly one connection, and
when the accepted peer's host differs from the control-channel peer host
recorded at setup, it returns an error having written nothing: the event
trace is the bare accept, with no data written and nothing closed. -/
theorem c3_passive_write_hijack (expectedIP addr msg dip p : List Char)
    (writeOk : Bool) (hsplit : splitHostPort addr = some (dip, p)) :
    ((passiveDataConnWrite expectedIP (some addr) writeOk msg).2.countP
        (fun e => match e with | DataEvent.accepted _ => true | _ => false) = 1)
    ∧ (dip ≠ expectedIP →
        (∃ e, (passiveDataConnWrite expectedIP (some addr) writeOk msg).1
          = WriteRes.err e)
        ∧ (passiveDataConnWrite expectedIP (some addr) writeOk msg).2
          = [DataEvent.accepted addr]) := by
  unfold passiveDataConnWrite
  dsimp only
  rw [hsplit]
  dsimp only
  by_cases hne : dip ≠ expectedIP
  · rw [if_pos hne]
    refine ⟨by simp [List.countP, List.countP.go], fun _ => ⟨⟨_, rfl⟩, rfl⟩⟩
  · rw [if_neg hne]
    refine ⟨?_, fun h => absurd h hne⟩
    cases writeOk <;> simp [List.countP, List.countP.go]

/-- C3 witness: a concrete hijack attempt from `5.6.7.8` against an expected
peer `1.2.3.4`. -/
theorem c3_passive_write_hijack_witness :
    ((passiveDataConnWrite (chars "1.2.3.4") (some (chars "5.6.7.8:2000")) true
        (chars "payload")).2.countP
        (fun e => match e with | DataEvent.accepted _ => true | _ => false) = 1)
    ∧ (chars "5.6.7.8" ≠ chars "1.2.3.4" →
        (∃ e, (passiveDataConnWrite (chars "1.2.3.4") (some (chars "5.6.7.8:2000")) true
          (chars "payload")).1 = WriteRes.err e)
        ∧ (passiveDataConnWrite (chars "1.2.3.4") (some (chars "5.6.7.8:2000")) true
          (chars "payload")).2 = [DataEvent.accepted (chars "5.6.7.8:2000")]) :=
  c3_passive_write_hijack (chars "1.2.3.4") (chars "5.6.7.8:2000") (chars "payload")
    (chars "5.6.7.8") (chars "2000") true (by decide)

/-- A world holding the single regular file `/f` with contents `a CR LF`. -/
def wRetr : World :=
  { lstat := fun p => if p = chars "/f" then some { isDir := false, isRegular := true }
      else none,
    readFile := fun p => if p = chars "/f" then some (chars "a\r\n") else none,
    lsOutput := fun _ => none, dataWriteOk := true, passiveListenAddr := none,
    controlRemoteAddr := [] }

/-- C4 counterexample: retrieving a file whose contents are `a CR LF` writes
`a CR CR LF` to the data channel, although the file has no bare LF at all:
the source converts every LF, not only the bare ones, so an LF already
preceded by CR also becomes CRLF. -/
theorem c4_retr_crlf_counterexample :
    (HandleRETR wRetr stLogged (chars "/f")).events
      = [Event.reply (chars "150") (chars "Here comes the file."),
         Event.dataWrite (chars "a\r\r\n"),
         Event.reply (chars "226") (chars "File transfered successfully.")]
    ∧ bareLfToCrlf (chars "a\r\n") = chars "a\r\n"
    ∧ chars "a\r\r\n" ≠ chars "a\r\n" := by
  decide

/-- C4 (amended): for every RETR of an existing regular file, the byte
sequence handed to the data channel is the file contents with every LF
(bare or not) replaced by CRLF, reply `150` precedes the data write, and the
terminal reply is `226` on success and `451` on a data-channel failure. -/
theorem c4_retr_amended (w : World) (st : HState) (file : List Char)
    (info : FileInfo) (data : List Char)
    (hstat : w.lstat (if pathIsAbs file then file else pathJoin2 st.dir file) = some info)
    (hreg : info.isRegular = true)
    (hread : w.readFile (if pathIsAbs file then file else pathJoin2 st.dir file)
      = some data) :
    (HandleRETR w st file).events
      = Event.reply (chars "150") (chars "Here comes the file.")
        :: Event.dataWrite (lfToCrlfAll data)
        :: (if w.dataWriteOk then
              [Event.reply (chars "226") (chars "File transfered successfully.")]
            else [Event.reply (chars "451") (chars "Error occurred in transfer.")])
    ∧ (HandleRETR w st file).st = st := by
  unfold HandleRETR
  dsimp only
  rw [hstat]
  dsimp only
  rw [if_neg (not_not_intro hreg)]
  rw [hread]
  exact ⟨rfl, rfl⟩

/-- C4 witness: the amended statement at the concrete world `wRetr`. -/
theorem c4_retr_amended_witness :
    (HandleRETR wRetr stLogged (chars "/f")).events
      = Event.reply (chars "150") (chars "Here comes the file.")
        :: Event.dataWrite (lfToCrlfAll (chars "a\r\n"))
        :: (if wRetr.dataWriteOk then
              [Event.reply (chars "226") (chars "File transfered successfully.")]
            else [Event.reply (chars "451") (chars "Error occurred in transfer.")])
    ∧ (HandleRETR wRetr stLogged (chars "/f")).st = stLogged :=
  c4_retr_amended wRetr stLogged (chars "/f") { isDir := false, isRegular := true }
    (chars "a\r\n") (by decide) rfl (by decide)

/-! Lemmas about trimming and splitting, shared by the EPRT claims. -/

theorem trimLeftChar_cons (c x : Char) (xs : List Char) :
    trimLeftChar c (x :: xs) = if x = c then trimLeftChar c xs else x :: xs := rfl

theorem trimLeftChar_of_head_ne {c : Char} {t : List Char}
    (h : ∀ y, t.head? = some y → y ≠ c) : trimLeftChar c t = t := by
  cases t with
  | nil => rfl
  | cons x xs =>
    rw [trimLeftChar_cons, if_neg (h x rfl)]

theorem trimChar_wrap (c : Char) (t : List Char) (hne : t ≠ [])
    (hhd : ∀ y, t.head? = some y → y ≠ c)
    (hlast : ∀ y, t.getLast? = some y → y ≠ c) :
    trimChar c (c :: (t ++ [c])) = t := by
  unfold trimChar
  have h1 : trimLeftChar c (c :: (t ++ [c])) = t ++ [c] := by
    rw [trimLeftChar_cons, if_pos rfl]
    apply trimLeftChar_of_head_ne
    cases t with
    | nil => exact absurd rfl hne
    | cons z zs =>
      intro y hy
      simp only [List.cons_append, List.head?_cons, Option.some.injEq] at hy
      exact hhd y (by rw [List.head?_cons, hy])
  rw [h1]
  unfold trimRightChar
  rw [List.reverse_append]
  have h2 : trimLeftChar c ([c].reverse ++ t.reverse) = t.reverse := by
    simp only [List.reverse_singleton, List.singleton_append]
    rw [trimLeftChar_cons, if_pos rfl]
    apply trimLeftChar_of_head_ne
    intro y hy
    apply hlast
    rwa [List.head?_reverse] at hy
  rw [h2, List.reverse_reverse]

theorem splitOnChar_cons (sep x : Char) (xs : List Char) :
    splitOnChar sep (x :: xs)
      = if x = sep then [] :: splitOnChar sep xs
        else
          match splitOnChar sep xs with
          | [] => [[x]]
          | p :: ps => (x :: p) :: ps := by
  rw [splitOnChar]

theorem splitOnChar_of_not_mem {sep : Char} {xs : List Char} (h : sep ∉ xs) :
    splitOnChar sep xs = [xs] := by
  induction xs with
  | nil => rfl
  | cons x xs ih =>
    rw [splitOnChar_cons,
      if_neg (fun (he : x = sep) => h (by rw [← he]; exact List.mem_cons_self x xs)),
      ih (fun hm => h (List.mem_cons_of_mem x hm))]

theorem splitOnChar_append {sep : Char} (xs ys : List Char) (h : sep ∉ xs) :
    splitOnChar sep (xs ++ sep :: ys) = xs :: splitOnChar sep ys := by
  induction xs with
  | nil =>
    simp only [List.nil_append]
    rw [splitOnChar_cons, if_pos rfl]
  | cons x xs ih =>
    simp only [List.cons_append]
    rw [splitOnChar_cons,
      if_neg (fun (he : x = sep) => h (by rw [← he]; exact List.mem_cons_self x xs)),
      ih (fun hm => h (List.mem_cons_of_mem x hm))]

/-- Splitting behaviour of `parseEPRTArg` on a well-formed pipe-delimited
argument: with pipe-free nonempty fields the parser sees exactly the three
fields, and the outcome is decided by the protocol test alone. -/
theorem parseEPRTArg_cons (d : Char) (rest : List Char) :
    parseEPRTArg (d :: rest) =
      match splitOnChar '|' (trimChar d (d :: rest)) with
      | [proto, hostp, portp] =>
        if proto = chars "1" ∨ proto = chars "2" then
          EPRTRes.addr (joinHostPort hostp portp)
        else EPRTRes.badFamily
      | _ => EPRTRes.badString := rfl

theorem parseEPRTArg_wrapped (proto addrs port : List Char)
    (hp1 : proto ≠ []) (hp2 : '|' ∉ proto) (ha : '|' ∉ addrs)
    (hq1 : port ≠ []) (hq2 : '|' ∉ port) :
    parseEPRTArg ('|' :: (proto ++ ('|' :: (addrs ++ ('|' :: (port ++ ['|']))))))
      = if proto = chars "1" ∨ proto = chars "2" then
          EPRTRes.addr (joinHostPort addrs port)
        else EPRTRes.badFamily := by
  rw [parseEPRTArg_cons]
  rw [show proto ++ ('|' :: (addrs ++ ('|' :: (port ++ ['|']))))
      = (proto ++ ('|' :: (addrs ++ ('|' :: port)))) ++ ['|'] by simp]
  have hlast_eq : (proto ++ ('|' :: (addrs ++ ('|' :: port)))).getLast? = port.getLast? := by
    rw [List.getLast?_append_cons]
    rw [show ('|' :: (addrs ++ ('|' :: port))) = ('|' :: addrs) ++ ('|' :: port) by simp]
    rw [List.getLast?_append_cons]
    exact List.getLast?_append_of_ne_nil ['|'] hq1
  have htrim : trimChar '|'
      ('|' :: ((proto ++ ('|' :: (addrs ++ ('|' :: port)))) ++ ['|']))
      = proto ++ ('|' :: (addrs ++ ('|' :: port))) := by
    apply trimChar_wrap
    · cases proto <;> simp
    · intro y hy he
      cases proto with
      | nil => exact hp1 rfl
      | cons z zs =>
        simp only [List.cons_append, List.head?_cons, Option.some.injEq] at hy
        exact hp2 (by rw [hy, he]; exact List.mem_cons_self '|' zs)
    · intro y hy he
      rw [hlast_eq] at hy
      rcases List.mem_getLast?_eq_getLast (show y ∈ port.getLast? from hy) with ⟨hney, hl⟩
      exact hq2 (he ▸ hl ▸ List.getLast_mem hney)
  rw [htrim]
  rw [splitOnChar_append proto _ hp2]
  rw [splitOnChar_append addrs _ ha]
  rw [splitOnChar_of_not_mem hq2]

/-- C7 counterexample: an EPRT argument that is well-formed in the RFC 2428
shape with delimiter `,` and address family `3` is answered with the generic
`501` argument error, not with `522`: the parser splits on the literal `|`
regardless of the delimiter byte, so the family field is never even
reached. -/
theorem c7_eprt_delim_counterexample :
    (dispatch trivialWorld cfgBoth usersAlice stLogged (chars "EPRT")
        (chars ",3,fe80::1,1234,")).events = [reply501Args]
    ∧ (dispatch trivialWorld cfgBoth usersAlice stLogged (chars "EPRT")
        (chars ",3,fe80::1,1234,")).events
      ≠ [Event.reply (chars "522") (chars "Unrecognized address family identifier.")] := by
  decide

/-- C7 (amended): for a logged-in session with PORT mode enabled, an EPRT
argument in the shape `<d>proto<d>addr<d>port<d>` is answered `522` for a
protocol other than `1` or `2` provided the delimiter is the `|` character
(pipe-free nonempty fields); for any other delimiter the parser fails with
the generic `501` instead. -/
theorem c7_eprt_family_amended (w : World) (cfg : GoConfig)
    (users : List Char → Option (List Char)) (st : HState)
    (proto addrs port : List Char)
    (hport : cfg.port = true) (htab : st.tableLoggedIn = true)
    (hp1 : proto ≠ []) (hp2 : '|' ∉ proto)
    (hne1 : proto ≠ chars "1") (hne2 : proto ≠ chars "2")
    (ha : '|' ∉ addrs) (hq1 : port ≠ []) (hq2 : '|' ∉ port) :
    (dispatch w cfg users st (chars "EPRT")
        ('|' :: (proto ++ ('|' :: (addrs ++ ('|' :: (port ++ ['|']))))))).events
      = [Event.reply (chars "522") (chars "Unrecognized address family identifier.")] := by
  have hd : ∀ arg, dispatch w cfg users st (chars "EPRT") arg = HandleEPRT cfg st arg := by
    intro arg
    obtain ⟨u, d, li, tl, dc⟩ := st
    have h : tl = true := htab
    subst h
    rfl
  rw [hd]
  unfold HandleEPRT
  rw [if_neg (not_not_intro hport)]
  rw [parseEPRTArg_wrapped proto addrs port hp1 hp2 ha hq1 hq2]
  rw [if_neg (fun hor => hor.elim hne1 hne2)]
  rfl

/-- C7 witness: `|3|fe80::1|1234|` at a concrete logged-in session. -/
theorem c7_eprt_family_amended_witness :
    (dispatch trivialWorld cfgBoth usersAlice stLogged (chars "EPRT")
        ('|' :: (chars "3" ++ ('|' :: (chars "fe80::1"
          ++ ('|' :: (chars "1234" ++ ['|']))))))).events
      = [Event.reply (chars "522") (chars "Unrecognized address family identifier.")] :=
  c7_eprt_family_amended trivialWorld cfgBoth usersAlice stLogged
    (chars "3") (chars "fe80::1") (chars "1234") rfl rfl
    (by decide) (by decide) (by decide) (by decide) (by decide) (by decide) (by decide)

/-- C6 counterexample: `hostPortToAddr` accepts out-of-range components.  An
octet of `300` and port bytes of `300` are not rejected: the octets are never
range-checked, the scanned port bytes wrap in `uint16` arithmetic, and the
final range check can never fire. -/
theorem c6_hostport_range_counterexample :
    hostPortToAddr (chars "300,0,0,1,0,80") = some (chars "300.0.0.1:80")
    ∧ hostPortToAddr (chars "1,2,3,4,300,300") = some (chars "1.2.3.4:11564") := by
  decide

theorem not_mem_of_all_digits {x : Char} {s : List Char}
    (hall : s.all isDigitChar = true) (hx : isDigitChar x = false) : x ∉ s :=
  fun hm => by
    have h := List.all_eq_true.mp hall x hm
    rw [hx] at h
    exact Bool.noConfusion h

theorem sscanfUint16_digits {p : List Char} (hne : p ≠ [])
    (hd : p.all isDigitChar = true) (hle : digitsToNat p ≤ 65535) :
    sscanfUint16 p = digitsToNat p := by
  unfold sscanfUint16
  have h1 : p.dropWhile (fun c => c = ' ') = p := by
    cases p with
    | nil => rfl
    | cons x xs =>
      rw [List.dropWhile_cons, if_neg ?_]
      simp only [decide_eq_true_eq]
      intro hsp
      have hx := List.all_eq_true.mp hd x (List.mem_cons_self x xs)
      rw [hsp] at hx
      exact absurd hx (by decide)
  rw [h1]
  dsimp only
  rw [List.takeWhile_eq_self_iff.mpr (List.all_eq_true.mp hd)]
  rw [if_neg hne]
  rw [if_neg (by omega)]

/-- C6 (amended): `hostPortToAddr` succeeds exactly on arguments with six
comma-separated fields, with no range validation at all (the final range
check is dead code since the port is computed in wrapping `uint16`
arithmetic).  On six digit fields whose port bytes are in `[0,255]` it does
return the verbatim dotted host and the port `p1*256+p2`. -/
theorem c6_hostport_amended :
    (∀ s : List Char, (hostPortToAddr s).isSome = true
      ↔ (splitOnChar ',' s).length = 6)
    ∧ (∀ a b c d p1 p2 : List Char,
        a.all isDigitChar = true → b.all isDigitChar = true →
        c.all isDigitChar = true → d.all isDigitChar = true →
        p1 ≠ [] → p1.all isDigitChar = true → digitsToNat p1 ≤ 255 →
        p2 ≠ [] → p2.all isDigitChar = true → digitsToNat p2 ≤ 255 →
        hostPortToAddr
            (a ++ (',' :: (b ++ (',' :: (c ++ (',' :: (d ++ (',' ::
              (p1 ++ (',' :: p2))))))))))
          = some ((a ++ ('.' :: (b ++ ('.' :: (c ++ ('.' :: d))))))
              ++ ':' :: natDecimal (digitsToNat p1 * 256 + digitsToNat p2))) := by
  constructor
  · intro s
    unfold hostPortToAddr
    rcases hs : splitOnChar ',' s with _ | ⟨a, _ | ⟨b, _ | ⟨c, _ | ⟨d, _ |
      ⟨p1, _ | ⟨p2, _ | ⟨x, rest⟩⟩⟩⟩⟩⟩⟩ <;> simp
    have hmod := Nat.mod_lt (sscanfUint16 p1 * 256 + sscanfUint16 p2)
      (show 0 < 65536 by norm_num)
    omega
  · intro a b c d p1 p2 hda hdb hdc hdd hp1 hdp1 hle1 hp2 hdp2 hle2
    have hcm : isDigitChar ',' = false := by decide
    have hsplit : splitOnChar ','
        (a ++ (',' :: (b ++ (',' :: (c ++ (',' :: (d ++ (',' ::
          (p1 ++ (',' :: p2))))))))))
        = [a, b, c, d, p1, p2] := by
      rw [splitOnChar_append a _ (not_mem_of_all_digits hda hcm)]
      rw [splitOnChar_append b _ (not_mem_of_all_digits hdb hcm)]
      rw [splitOnChar_append c _ (not_mem_of_all_digits hdc hcm)]
      rw [splitOnChar_append d _ (not_mem_of_all_digits hdd hcm)]
      rw [splitOnChar_append p1 _ (not_mem_of_all_digits hdp1 hcm)]
      rw [splitOnChar_of_not_mem (not_mem_of_all_digits hdp2 hcm)]
    unfold hostPortToAddr
    rw [hsplit]
    dsimp only
    rw [sscanfUint16_digits hp1 hdp1 (by omega)]
    rw [sscanfUint16_digits hp2 hdp2 (by omega)]
    rw [Nat.mod_eq_of_lt (by omega)]
    rw [if_neg (by omega)]
    have hnc : ((a ++ ('.' :: (b ++ ('.' :: (c ++ ('.' :: d)))))).contains ':')
        = false := by
      have hdm : isDigitChar ':' = false := by decide
      have hnm : ':' ∉ a ++ ('.' :: (b ++ ('.' :: (c ++ ('.' :: d))))) := by
        intro hm
        rcases List.mem_append.mp hm with h | h
        · exact not_mem_of_all_digits hda hdm h
        rcases List.mem_cons.mp h with h | h
        · exact absurd h (by decide)
        rcases List.mem_append.mp h with h | h
        · exact not_mem_of_all_digits hdb hdm h
        rcases List.mem_cons.mp h with h | h
        · exact absurd h (by decide)
        rcases List.mem_append.mp h with h | h
        · exact not_mem_of_all_digits hdc hdm h
        rcases List.mem_cons.mp h with h | h
        · exact absurd h (by decide)
        exact not_mem_of_all_digits hdd hdm h
      simpa using hnm
    unfold joinHostPort
    rw [hnc]
    rfl

/-- C6 witness: the amended statement at the argument `127,0,0,1,4,0`. -/
theorem c6_hostport_amended_witness :
    ((hostPortToAddr (chars "127,0,0,1,4,0")).isSome = true
      ↔ (splitOnChar ',' (chars "127,0,0,1,4,0")).length = 6)
    ∧ hostPortToAddr
        (chars "127" ++ (',' :: (chars "0" ++ (',' :: (chars "0" ++ (',' ::
          (chars "1" ++ (',' :: (chars "4" ++ (',' :: chars "0"))))))))))
      = some ((chars "127" ++ ('.' :: (chars "0" ++ ('.' :: (chars "0"
          ++ ('.' :: chars "1"))))))
          ++ ':' :: natDecimal (digitsToNat (chars "4") * 256
            + digitsToNat (chars "0"))) :=
  ⟨c6_hostport_amended.1 (chars "127,0,0,1,4,0"),
    c6_hostport_amended.2 (chars "127") (chars "0") (chars "0") (chars "1")
      (chars "4") (chars "0") (by decide) (by decide) (by decide) (by decide)
      (by decide) (by decide) (by decide) (by decide) (by decide) (by decide)⟩

/-! Preservation of the current directory by the handlers other than CWD. -/

theorem HandleUSER_dir (st : HState) (u : List Char) :
    (HandleUSER st u).st.dir = st.dir := by
  unfold HandleUSER okOut
  split_ifs <;> rfl

theorem HandlePASS_dir (users : List Char → Option (List Char)) (st : HState)
    (pw : List Char) : (HandlePASS users st pw).st.dir = st.dir := by
  unfold HandlePASS okOut
  split_ifs
  · rfl
  · rcases hu : users st.username with _ | p
    · rfl
    · dsimp only
      split_ifs <;> rfl

theorem HandlePWD_dir (st : HState) (a : List Char) :
    (HandlePWD st a).st.dir = st.dir := by
  unfold HandlePWD okOut
  split_ifs <;> rfl

theorem HandleHELP_dir (st : HState) (a : List Char) :
    (HandleHELP st a).st.dir = st.dir := by
  unfold HandleHELP okOut
  split_ifs <;> rfl

theorem HandlePORT_dir (cfg : GoConfig) (st : HState) (a : List Char) :
    (HandlePORT cfg st a).st.dir = st.dir := by
  unfold HandlePORT okOut
  split
  · rfl
  · split <;> rfl

theorem HandleEPRT_dir (cfg : GoConfig) (st : HState) (a : List Char) :
    (HandleEPRT cfg st a).st.dir = st.dir := by
  unfold HandleEPRT okOut
  split
  · rfl
  · split <;> rfl

theorem HandlePASV_dir (w : World) (cfg : GoConfig) (st : HState) (a : List Char) :
    (HandlePASV w cfg st a).st.dir = st.dir := by
  unfold HandlePASV initPassiveDataConn okOut
  dsimp only
  split_ifs
  all_goals try rfl
  rcases hw : w.passiveListenAddr with _ | lnAddr
  · rfl
  · dsimp only
    repeat' split
    all_goals rfl

theorem HandleEPSV_dir (w : World) (cfg : GoConfig) (st : HState) (a : List Char) :
    (HandleEPSV w cfg st a).st.dir = st.dir := by
  unfold HandleEPSV initPassiveDataConn okOut
  dsimp only
  split_ifs
  all_goals try rfl
  rcases hw : w.passiveListenAddr with _ | lnAddr
  · rfl
  · dsimp only
    repeat' split
    all_goals rfl

theorem HandleLIST_dir (w : World) (st : HState) (d : List Char) :
    (HandleLIST w st d).st.dir = st.dir := by
  unfold HandleLIST okOut
  dsimp only
  repeat' split
  all_goals rfl

theorem HandleRETR_dir (w : World) (st : HState) (f : List Char) :
    (HandleRETR w st f).st.dir = st.dir := by
  unfold HandleRETR okOut
  dsimp only
  repeat' split
  all_goals rfl

/-! Absoluteness of cleaned and joined paths. -/

theorem pathIsAbs_pathClean {p : List Char} (h : pathIsAbs p = true) :
    pathIsAbs (pathClean p) = true := by
  have hne : p ≠ [] := by
    cases p with
    | nil => exact Bool.noConfusion h
    | cons x xs => exact List.cons_ne_nil x xs
  unfold pathClean
  rw [if_neg hne]
  dsimp only
  rw [h]
  split
  · rfl
  · rfl

theorem pathIsAbs_pathJoin2 {a : List Char} (b : List Char)
    (h : pathIsAbs a = true) : pathIsAbs (pathJoin2 a b) = true := by
  have hne : a ≠ [] := by
    cases a with
    | nil => exact Bool.noConfusion h
    | cons x xs => exact List.cons_ne_nil x xs
  unfold pathJoin2
  rw [if_neg hne]
  by_cases hb : b = []
  · rw [if_pos hb]
    exact pathIsAbs_pathClean h
  · rw [if_neg hb]
    apply pathIsAbs_pathClean
    cases a with
    | nil => exact absurd rfl hne
    | cons x xs => exact h

/-- The directory stored by `HandleCWD` stays absolute when it was. -/
theorem HandleCWD_dir_abs (w : World) (st : HState) (dir : List Char)
    (h : pathIsAbs st.dir = true) :
    pathIsAbs ((HandleCWD w st dir).st.dir) = true := by
  unfold HandleCWD
  dsimp only
  by_cases hab : pathIsAbs dir = true
  · rw [if_pos hab]
    rcases hl : w.lstat dir with _ | info
    · exact h
    · dsimp only
      split_ifs <;> first | exact h | exact hab
  · rw [if_neg hab]
    rcases hl : w.lstat (pathJoin2 st.dir dir) with _ | info
    · exact h
    · dsimp only
      split_ifs <;> first | exact h | exact pathIsAbs_pathJoin2 dir h

theorem HandleCDUP_dir_abs (w : World) (st : HState) (a : List Char)
    (h : pathIsAbs st.dir = true) :
    pathIsAbs ((HandleCDUP w st a).st.dir) = true := by
  unfold HandleCDUP
  split_ifs
  · exact h
  · exact HandleCWD_dir_abs w st (chars "..") h

/-- A world holding the single directory `/a/..`, named non-canonically. -/
def wCwd : World :=
  { lstat := fun p => if p = chars "/a/.." then some { isDir := true, isRegular := false }
      else none,
    readFile := fun _ => none, lsOutput := fun _ => none, dataWriteOk := true,
    passiveListenAddr := none, controlRemoteAddr := [] }

/-- A world holding the single directory `/sub`. -/
def wCwd2 : World :=
  { lstat := fun p => if p = chars "/sub" then some { isDir := true, isRegular := false }
      else none,
    readFile := fun _ => none, lsOutput := fun _ => none, dataWriteOk := true,
    passiveListenAddr := none, controlRemoteAddr := [] }

/-- C8 counterexample: a successful `CWD /a/..` stores the argument verbatim:
the stored `cwd` is `/a/..`, which is not the lexically cleaned `/`, so the
cwd field is not always canonicalized. -/
theorem c8_cwd_canonical_counterexample :
    (HandleCWD wCwd stLogged (chars "/a/..")).st.dir = chars "/a/.."
    ∧ (HandleCWD wCwd stLogged (chars "/a/..")).events
      = [Event.reply (chars "250") (chars "Directory change successful.")]
    ∧ pathClean (chars "/a/..") = chars "/"
    ∧ chars "/a/.." ≠ chars "/" := by
  decide

/-- C8 (amended): the cwd field is always absolute (it starts as the absolute
process working directory and every dispatch step preserves absoluteness),
but canonicalized only for relative arguments: a successful CWD with a
relative argument stores the lexically cleaned join of cwd and the argument,
while a successful CWD with an absolute argument stores the argument verbatim
without cleaning. -/
theorem c8_cwd_amended (w : World) (cfg : GoConfig)
    (users : List Char → Option (List Char)) (st : HState) (code arg : List Char)
    (habs : pathIsAbs st.dir = true) :
    pathIsAbs ((dispatch w cfg users st code arg).st.dir) = true
    ∧ (∀ info : FileInfo, pathIsAbs arg = false → arg ≠ [] →
        w.lstat (pathJoin2 st.dir arg) = some info → info.isDir = true →
        (HandleCWD w st arg).st.dir = pathClean (st.dir ++ '/' :: arg))
    ∧ (∀ info : FileInfo, pathIsAbs arg = true →
        w.lstat arg = some info → info.isDir = true →
        (HandleCWD w st arg).st.dir = arg)
    ∧ (∀ wd : List Char, ∀ dc : ServerDataConn, (newHandlerState wd dc).dir = wd) := by
  refine ⟨?_, ?_, ?_, fun wd dc => rfl⟩
  · by_cases hq : code = chars "QUIT"
    · have hd : dispatch w cfg users st code arg = HandleQUIT st := by
        unfold dispatch
        rw [if_pos hq]
      rw [hd]
      exact habs
    · have hd : dispatch w cfg users st code arg =
          match (if st.tableLoggedIn then tableLoggedIn code else tablePreAuth code) with
          | none =>
            okOut st [.reply (chars "500") (code ++ chars ": command not recognized.")]
          | some entry => runEntry w cfg users st arg entry := by
        unfold dispatch
        rw [if_neg hq]
      rw [hd]
      rcases (if st.tableLoggedIn then tableLoggedIn code else tablePreAuth code)
        with _ | entry
      · exact habs
      · dsimp only
        cases entry with
        | cUSER =>
          dsimp only [runEntry]
          rw [HandleUSER_dir st arg]
          exact habs
        | cPASS =>
          dsimp only [runEntry]
          rw [HandlePASS_dir users st arg]
          exact habs
        | cHELP =>
          dsimp only [runEntry]
          rw [HandleHELP_dir st arg]
          exact habs
        | cPWD =>
          dsimp only [runEntry]
          rw [HandlePWD_dir st arg]
          exact habs
        | cCWD =>
          exact HandleCWD_dir_abs w st arg habs
        | cCDUP =>
          exact HandleCDUP_dir_abs w st arg habs
        | cPORT =>
          dsimp only [runEntry]
          rw [HandlePORT_dir cfg st arg]
          exact habs
        | cEPRT =>
          dsimp only [runEntry]
          rw [HandleEPRT_dir cfg st arg]
          exact habs
        | cPASV =>
          dsimp only [runEntry]
          rw [HandlePASV_dir w cfg st arg]
          exact habs
        | cEPSV =>
          dsimp only [runEntry]
          rw [HandleEPSV_dir w cfg st arg]
          exact habs
        | cLIST =>
          dsimp only [runEntry]
          rw [HandleLIST_dir w st arg]
          exact habs
        | cRETR =>
          dsimp only [runEntry]
          rw [HandleRETR_dir w st arg]
          exact habs
        | cQUIT =>
          exact habs
        | errNotLoggedIn =>
          exact habs
  · intro info hrel hne hstat hdir
    unfold HandleCWD
    dsimp only
    rw [if_neg (by rw [hrel]; exact Bool.false_ne_true)]
    rw [hstat]
    dsimp only
    rw [if_neg (not_not_intro hdir)]
    have hane : st.dir ≠ [] := by
      cases hsd : st.dir with
      | nil => rw [hsd] at habs; exact Bool.noConfusion habs
      | cons x xs => exact List.cons_ne_nil x xs
    unfold pathJoin2
    rw [if_neg hane, if_neg hne]
    rfl
  · intro info habs' hstat hdir
    unfold HandleCWD
    dsimp only
    rw [if_pos habs']
    rw [hstat]
    dsimp only
    rw [if_neg (not_not_intro hdir)]
    rfl

/-- C8 witness: the invariant and the relative-argument equation at a
concrete session with cwd `/`. -/
theorem c8_cwd_amended_witness :
    pathIsAbs ((dispatch trivialWorld cfgBoth usersAlice stLogged
        (chars "CWD") (chars "sub")).st.dir) = true
    ∧ (HandleCWD wCwd2 stLogged (chars "sub")).st.dir
      = pathClean (stLogged.dir ++ '/' :: chars "sub") :=
  ⟨(c8_cwd_amended trivialWorld cfgBoth usersAlice stLogged
      (chars "CWD") (chars "sub") (by decide)).1,
   (c8_cwd_amended wCwd2 cfgBoth usersAlice stLogged
      (chars "CWD") (chars "sub") (by decide)).2.1
      { isDir := true, isRegular := false } (by decide) (by decide) (by decide) rfl⟩

/-! A parsed IP literal cannot contain a pipe character: every character of a
valid literal sits inside a digit group, a hex group, or is a dot or colon. -/

theorem not_mem_of_all {p : Char → Bool} {x : Char} {s : List Char}
    (hall : s.all p = true) (hx : p x = false) : x ∉ s :=
  fun hm => by
    have h := List.all_eq_true.mp hall x hm
    rw [hx] at h
    exact Bool.noConfusion h

theorem mem_part_of_mem_splitOnChar {sep x : Char} {s : List Char}
    (hx : x ∈ s) (hne : x ≠ sep) :
    ∃ part ∈ splitOnChar sep s, x ∈ part := by
  induction s with
  | nil => cases hx
  | cons y ys ih =>
    rw [splitOnChar_cons]
    by_cases hy : y = sep
    · rw [if_pos hy]
      rcases List.mem_cons.mp hx with he | hm
      · exact absurd (he.trans hy) hne
      · rcases ih hm with ⟨part, hp, hxp⟩
        exact ⟨part, List.mem_cons_of_mem _ hp, hxp⟩
    · rw [if_neg hy]
      rcases hsp : splitOnChar sep ys with _ | ⟨p, ps⟩
      · exact absurd hsp (splitOnChar_ne_nil sep ys)
      · dsimp only
        rcases List.mem_cons.mp hx with he | hm
        · exact ⟨y :: p, List.mem_cons_self _ _, by rw [he]; exact List.mem_cons_self y p⟩
        · rcases ih hm with ⟨part, hp, hxp⟩
          rw [hsp] at hp
          rcases List.mem_cons.mp hp with hpe | hpm
          · refine ⟨y :: p, List.mem_cons_self _ _, ?_⟩
            rw [← hpe]
            exact List.mem_cons_of_mem y hxp
          · exact ⟨part, List.mem_cons_of_mem _ hpm, hxp⟩

theorem parseOctet_digits {g : List Char} {v : Nat} (h : parseOctet g = some v) :
    g.all isDigitChar = true := by
  unfold parseOctet at h
  split_ifs at h with hc
  exact hc.2.1

theorem parseIPv4_no_pipe {s : List Char} {q : Nat × Nat × Nat × Nat}
    (h : parseIPv4 s = some q) : '|' ∉ s := by
  intro hm
  unfold parseIPv4 at h
  rcases hs : splitOnChar '.' s with _ | ⟨a, _ | ⟨b, _ | ⟨c, _ | ⟨d, _ | ⟨x, r⟩⟩⟩⟩⟩ <;>
    rw [hs] at h <;> dsimp only at h <;> try exact Option.noConfusion h
  simp only [bind, Option.bind_eq_some, pure, Option.some.injEq] at h
  obtain ⟨va, o1, vb, o2, vc, o3, vd, o4, -⟩ := h
  rcases @mem_part_of_mem_splitOnChar '.' '|' s hm (by decide) with ⟨part, hp, hxp⟩
  rw [hs] at hp
  have hpd : isDigitChar '|' = false := by decide
  rcases List.mem_cons.mp hp with rfl | hp
  · exact not_mem_of_all (parseOctet_digits o1) hpd hxp
  rcases List.mem_cons.mp hp with rfl | hp
  · exact not_mem_of_all (parseOctet_digits o2) hpd hxp
  rcases List.mem_cons.mp hp with rfl | hp
  · exact not_mem_of_all (parseOctet_digits o3) hpd hxp
  rcases List.mem_cons.mp hp with rfl | hp
  · exact not_mem_of_all (parseOctet_digits o4) hpd hxp
  cases hp

theorem splitEllipsis_eq : ∀ {s l r : List Char},
    splitEllipsis s = some (l, r) → s = l ++ ':' :: ':' :: r := by
  intro s
  induction s with
  | nil => intro l r h; exact Option.noConfusion h
  | cons c cs ih =>
    cases cs with
    | nil => intro l r h; exact Option.noConfusion h
    | cons d rest =>
      intro l r h
      unfold splitEllipsis at h
      split_ifs at h with hc
      · obtain ⟨rfl, rfl⟩ := hc
        simp only [Option.some.injEq, Prod.mk.injEq] at h
        obtain ⟨rfl, rfl⟩ := h
        rfl
      · rcases hse : splitEllipsis (d :: rest) with _ | ⟨l', r'⟩ <;> rw [hse] at h
        · exact Option.noConfusion h
        · simp only [Option.map_some', Option.some.injEq, Prod.mk.injEq] at h
          obtain ⟨rfl, rfl⟩ := h
          rw [List.cons_append]
          rw [← ih hse]

theorem groupBytes_no_pipe {b : Bool} {g : List Char} {bs : List Nat}
    (h : groupBytes b g = some bs) : '|' ∉ g := by
  intro hm
  unfold groupBytes at h
  split_ifs at h with h1 h2 h3
  · rcases hp : parseIPv4 g with _ | q <;> rw [hp] at h
    · exact Option.noConfusion h
    · exact parseIPv4_no_pipe hp hm
  · exact not_mem_of_all h3.2.2 (show isHexDigitChar '|' = false by decide) hm

theorem groupListBytes_no_pipe : ∀ {v4 : Bool} {gs : List (List Char)} {bs : List Nat},
    groupListBytes v4 gs = some bs → ∀ g ∈ gs, '|' ∉ g := by
  intro v4 gs
  induction gs with
  | nil => intro bs _ g hg; cases hg
  | cons g1 gs' ih =>
    cases gs' with
    | nil =>
      intro bs h g hg
      rcases List.mem_cons.mp hg with rfl | hg
      · exact groupBytes_no_pipe h
      · cases hg
    | cons g2 rest =>
      intro bs h g hg
      unfold groupListBytes at h
      rcases hb : groupBytes false g1 with _ | b1 <;> rw [hb] at h
      · exact Option.noConfusion h
      · rcases hr : groupListBytes v4 (g2 :: rest) with _ | bs2 <;> rw [hr] at h
        · exact Option.noConfusion h
        · rcases List.mem_cons.mp hg with rfl | hg
          · exact groupBytes_no_pipe hb
          · exact ih hr g hg

theorem sideGroups_mem {x : Char} {s : List Char} (hx : x ∈ s) (hne : x ≠ ':') :
    ∃ g ∈ sideGroups s, x ∈ g := by
  have hsne : s ≠ [] := by
    intro he
    rw [he] at hx
    cases hx
  unfold sideGroups
  rw [if_neg hsne]
  exact mem_part_of_mem_splitOnChar hx hne

theorem parseIPv6_no_pipe {s : List Char} {bs : List Nat}
    (h : parseIPv6 s = some bs) : '|' ∉ s := by
  intro hm
  unfold parseIPv6 at h
  rcases hse : splitEllipsis s with _ | ⟨l, r⟩ <;> rw [hse] at h <;> dsimp only at h
  · simp only [bind, Option.bind_eq_some] at h
    obtain ⟨bs', hgb, -⟩ := h
    rcases @sideGroups_mem '|' s hm (by decide) with ⟨g, hg, hxg⟩
    exact groupListBytes_no_pipe hgb g hg hxg
  · simp only [bind, Option.bind_eq_some] at h
    obtain ⟨lb, hlb, rb, hrb, -⟩ := h
    have hs := splitEllipsis_eq hse
    rw [hs] at hm
    rcases List.mem_append.mp hm with hml | hmr
    · rcases @sideGroups_mem '|' l hml (by decide) with ⟨g, hg, hxg⟩
      exact groupListBytes_no_pipe hlb g hg hxg
    · rcases List.mem_cons.mp hmr with he | hmr
      · exact absurd he (by decide)
      rcases List.mem_cons.mp hmr with he | hmr
      · exact absurd he (by decide)
      rcases @sideGroups_mem '|' r hmr (by decide) with ⟨g, hg, hxg⟩
      exact groupListBytes_no_pipe hrb g hg hxg

theorem parseIP_no_pipe {s : List Char} {ip : GoIP}
    (h : parseIP s = some ip) : '|' ∉ s := by
  unfold parseIP at h
  rcases hf : s.find? (fun c => c = '.' ∨ c = ':') with _ | c <;> rw [hf] at h
  · exact fun hm => Option.noConfusion h
  · dsimp only at h
    split_ifs at h
    · rcases hp : parseIPv4 s with _ | q <;> rw [hp] at h
      · exact fun hm => Option.noConfusion h
      · exact parseIPv4_no_pipe hp
    · rcases hp : parseIPv6 s with _ | bs <;> rw [hp] at h
      · exact fun hm => Option.noConfusion h
      · exact parseIPv6_no_pipe hp

/-- The host that `getEPRTString` advertises: the IPv6 loopback address is
rewritten to `127.0.0.1`, every other parsed host is sent verbatim. -/
def eprtHostRewrite (ip : GoIP) (host : List Char) : List Char :=
  match goTo4 ip with
  | some _ => host
  | none => if goIsLoopback ip then chars "127.0.0.1" else host

/-- C5 counterexample: with the empty port string the composition of
`getEPRTString` and `parseEPRTArg` does not return the pair: trimming the
argument eats the empty port's delimiter and the parser sees only two
fields. -/
theorem c5_eprt_roundtrip_counterexample :
    getEPRTString (chars "127.0.0.1") [] = some (chars "|1|127.0.0.1||")
    ∧ parseEPRTArg (chars "|1|127.0.0.1||") = EPRTRes.badString := by
  decide

/-- C5 (amended): for every host accepted by the IP-literal parser and every
nonempty pipe-free port string, `getEPRTString` composed with `parseEPRTArg`
returns exactly the joined (host, port) pair, with the IPv6 loopback host
rewritten to `127.0.0.1`. -/
theorem c5_eprt_roundtrip_amended (host port : List Char) (ip : GoIP)
    (hip : parseIP host = some ip) (hq1 : port ≠ []) (hq2 : '|' ∉ port) :
    ∃ s, getEPRTString host port = some s
      ∧ parseEPRTArg s
        = EPRTRes.addr (joinHostPort (eprtHostRewrite ip host) port) := by
  have hhost : '|' ∉ host := parseIP_no_pipe hip
  unfold getEPRTString eprtHostRewrite
  rw [hip]
  dsimp only
  rcases h4 : goTo4 ip with _ | q <;> dsimp only
  · by_cases hlb : goIsLoopback ip = true
    · rw [if_pos hlb]
      refine ⟨_, rfl, ?_⟩
      rw [parseEPRTArg_wrapped (chars "1") (chars "127.0.0.1") port
        (by decide) (by decide) (by decide) hq1 hq2]
      rw [if_pos (Or.inl rfl), if_pos hlb]
    · rw [if_neg hlb]
      refine ⟨_, rfl, ?_⟩
      rw [parseEPRTArg_wrapped (chars "2") host port
        (by decide) (by decide) hhost hq1 hq2]
      rw [if_pos (Or.inr rfl), if_neg hlb]
  · refine ⟨_, rfl, ?_⟩
    rw [parseEPRTArg_wrapped (chars "1") host port
      (by decide) (by decide) hhost hq1 hq2]
    rw [if_pos (Or.inl rfl)]

/-- C5 witness: the round trip at the IPv6 literal `fe80::1` with port
`1234`. -/
theorem c5_eprt_roundtrip_amended_witness :
    ∃ s, getEPRTString (chars "fe80::1") (chars "1234") = some s
      ∧ parseEPRTArg s
        = EPRTRes.addr (joinHostPort
            (eprtHostRewrite
              (GoIP.v6 [0xfe, 0x80, 0, 0, 0, 0, 0, 0, 0, 0, 0, 0, 0, 0, 0, 1])
              (chars "fe80::1"))
            (chars "1234")) :=
  c5_eprt_roundtrip_amended (chars "fe80::1") (chars "1234")
    (GoIP.v6 [0xfe, 0x80, 0, 0, 0, 0, 0, 0, 0, 0, 0, 0, 0, 0, 0, 1])
    (by decide) (by decide) (by decide)

end Goftp
